import Mathlib

/-!
# Verification of the flatbuffers read path (rust/flatbuffers)

Shallow embedding of the read-path core: the storage abstraction (`buffer.rs`),
the vector and its iterator (`vector.rs`), the table / field-offset table
(`table.rs`), and the checked/unchecked root accessors (`get_root.rs`).

Bytes are modelled as `List Nat` (each entry one byte value); locations are
`Nat`. Generic element decoding (the `Follow` trait) is modelled by passing an
explicit decode function `f : List Nat → Nat → α`. Where a cast wraps modulo
the machine word (the iterator's `wrapping_add` on `usize`) we take the result
modulo `2 ^ 64` explicitly.
-/

namespace Flatbuffers

/-- `usize` modulus: the iterator's `wrapping_add` wraps at this bound. -/
def USIZE : Nat := 2 ^ 64

/-- `SIZE_UOFFSET`: byte width of an unsigned forward offset / vector count. -/
def SIZE_UOFFSET : Nat := 4

/-- Byte width of the optional leading total-size field of a buffer. -/
def SIZE_SIZE_FIELD : Nat := 4

/-- `FILE_IDENTIFIER_LENGTH`: the file identifier region is 4 bytes. -/
def FILE_IDENTIFIER_LENGTH : Nat := 4

/-- `read_scalar_at` (endian_scalar.rs, via the spec's scalar codec):
little-endian fixed-width read of `width` bytes starting at `loc`; the byte at
`loc` is least significant. Bounds are trusted (out-of-window bytes read as 0
in the model; the claims that care prove the reads stay in the window). -/
def readLE (buf : List Nat) (loc : Nat) : Nat → Nat
  | 0 => 0
  | w + 1 => buf.getD loc 0 + 256 * readLE buf (loc + 1) w

/-- `<&[u8] as Buffer>::slice` (buffer.rs line 65): `self.get(range)`, which is
absent iff `start > end` or `end > len`, else exactly the bytes
`start..end`. -/
def sliceBuf (buf : List Nat) (s e : Nat) : Option (List Nat) :=
  if s > e ∨ e > buf.length then none else some ((buf.drop s).take (e - s))

/-- `<&[u8] as Buffer>::empty` (buffer.rs line 75): the empty byte window. -/
def emptyBuf : List Nat := []

/-- `<&[u8] as Buffer>::empty_str` (buffer.rs line 81): the canonical empty
string view (zero-copy: a string view is its byte run). -/
def empty_str : List Nat := []

/-- UTF-8 validity of a byte run, as decided by `std::str::from_utf8`
(RFC 3629 well-formedness: no overlongs, no surrogates, max U+10FFFF). -/
def isValidUtf8 : List Nat → Bool
  | [] => true
  | b0 :: t0 =>
    if b0 ≤ 0x7F then isValidUtf8 t0
    else if 0xC2 ≤ b0 ∧ b0 ≤ 0xDF then
      match t0 with
      | b1 :: t1 => (0x80 ≤ b1 && b1 ≤ 0xBF) && isValidUtf8 t1
      | [] => false
    else if 0xE0 ≤ b0 ∧ b0 ≤ 0xEF then
      match t0 with
      | b1 :: b2 :: t2 =>
        (if b0 = 0xE0 then 0xA0 ≤ b1 && b1 ≤ 0xBF
         else if b0 = 0xED then 0x80 ≤ b1 && b1 ≤ 0x9F
         else 0x80 ≤ b1 && b1 ≤ 0xBF)
        && (0x80 ≤ b2 && b2 ≤ 0xBF) && isValidUtf8 t2
      | _ => false
    else if 0xF0 ≤ b0 ∧ b0 ≤ 0xF4 then
      match t0 with
      | b1 :: b2 :: b3 :: t3 =>
        (if b0 = 0xF0 then 0x90 ≤ b1 && b1 ≤ 0xBF
         else if b0 = 0xF4 then 0x80 ≤ b1 && b1 ≤ 0x8F
         else 0x80 ≤ b1 && b1 ≤ 0xBF)
        && (0x80 ≤ b2 && b2 ≤ 0xBF) && (0x80 ≤ b3 && b3 ≤ 0xBF)
        && isValidUtf8 t3
      | _ => false
    else false

/-- `<&[u8] as Buffer>::buffer_str` (buffer.rs line 86): `std::str::from_utf8`;
succeeds with the same bytes viewed as a string exactly when they are valid
UTF-8, otherwise fails with the conversion error (modelled as `none`). -/
def buffer_str (buf : List Nat) : Option (List Nat) :=
  if isValidUtf8 buf then some buf else none

/-- `<&str as Follow>::follow` (vector.rs lines 143–153): read the 4-byte
length at `loc`, slice the payload, falling back to the empty buffer if the
slice is absent, then `buffer_str`, falling back to the canonical empty string
if UTF-8 conversion fails. -/
def followStr (buf : List Nat) (loc : Nat) : List Nat :=
  let len := readLE buf loc SIZE_UOFFSET
  (buffer_str ((sliceBuf buf (loc + SIZE_UOFFSET) (loc + SIZE_UOFFSET + len)).getD
      emptyBuf)).getD empty_str

/-- `ForwardsUOffset<T>::follow`. Modelled from the spec: primitives.rs is not
under src/; §4.3: "reads a 4-byte unsigned offset at `location`, then decodes
the wrapped type at `location + offset`". -/
def forwardsUOffsetFollow (f : List Nat → Nat → α) (buf : List Nat) (loc : Nat) : α :=
  f buf (loc + readLE buf loc SIZE_UOFFSET)

/-- `SkipSizePrefix<T>::follow`. Modelled from the spec: primitives.rs is not
under src/; §4.3: "skips a leading 4-byte total-size field before
delegating". -/
def skipSizeFieldFollow (f : List Nat → Nat → α) (buf : List Nat) (loc : Nat) : α :=
  f buf (loc + SIZE_SIZE_FIELD)

/-- `SkipRootOffset<T>::follow`. Modelled from the spec: primitives.rs is not
under src/; §6: the 4-byte forward offset to the root object precedes the
identifier region, so the wrapper skips `SIZE_UOFFSET` bytes and delegates. -/
def skipRootOffsetFollow (f : List Nat → Nat → α) (buf : List Nat) (loc : Nat) : α :=
  f buf (loc + SIZE_UOFFSET)

/-- `FileIdentifier::follow`. Modelled from the spec: primitives.rs is not
under src/; §4.6: "reads the fixed 4-byte identifier region"; the §9 open
question (buffer shorter than the region) is resolved the way §9 suggests:
the region is truncated at the end of the buffer — never read out of bounds —
so a short buffer can only compare unequal to a 4-byte identifier. -/
def fileIdentifierFollow (buf : List Nat) (loc : Nat) : List Nat :=
  (buf.drop loc).take FILE_IDENTIFIER_LENGTH

/-- `buffer_has_identifier` (table.rs lines 59–70): decode the identifier
region (after the size field when `size_prefixed`) and compare it
byte-for-byte with the caller-supplied identifier. The source asserts
`ident.len() == FILE_IDENTIFIER_LENGTH`; theorems carry that as a
hypothesis. -/
def buffer_has_identifier (data ident : List Nat) (size_prefixed : Bool) : Bool :=
  let got :=
    if size_prefixed then
      skipSizeFieldFollow (skipRootOffsetFollow fileIdentifierFollow) data 0
    else
      skipRootOffsetFollow fileIdentifierFollow data 0
  ident == got

/-! ## Vector and its iterator (vector.rs) -/

/-- `Vector<B, T>` (vector.rs line 30): a (storage, location) pair. The
element type is carried by the decode functions passed at use sites. -/
structure Vector where
  buf : List Nat
  loc : Nat
  deriving Repr, DecidableEq

/-- `Vector::default` (vector.rs lines 32–38): a static 4-byte all-zero
backing buffer at location 0. -/
def Vector.default : Vector := ⟨[0, 0, 0, 0], 0⟩

/-- `Vector::len` (vector.rs lines 72–75): the 4-byte little-endian count at
the vector's location. -/
def Vector.len (v : Vector) : Nat := readLE v.buf v.loc SIZE_UOFFSET

/-- `Vector::is_empty` (vector.rs lines 76–79). -/
def Vector.is_empty (v : Vector) : Bool := v.len == 0

/-- `Vector::get` (vector.rs lines 82–89): decode the element type at
`loc + SIZE_UOFFSET + sz * idx`, `sz` being the element's fixed stride.
The source's `debug_assert!(idx < len)` is carried as a theorem
hypothesis. -/
def Vector.get (f : List Nat → Nat → α) (sz : Nat) (v : Vector) (idx : Nat) : α :=
  f v.buf (v.loc + SIZE_UOFFSET + sz * idx)

/-- `VectorIter<B, T>` (vector.rs lines 185–192): storage, current location,
remaining count. -/
structure VectorIter where
  buf : List Nat
  loc : Nat
  remaining : Nat
  deriving Repr, DecidableEq

/-- `VectorIter::new` (vector.rs lines 194–207): start just past the 4-byte
count field, with `remaining = len`. -/
def VectorIter.new (v : Vector) : VectorIter :=
  ⟨v.buf, v.loc + SIZE_UOFFSET, v.len⟩

/-- `Vector::iter` (vector.rs lines 91–94). -/
def Vector.iter (v : Vector) : VectorIter := VectorIter.new v

/-- `VectorIter::next` (vector.rs lines 224–237): yield the element at the
current location and advance, or report exhaustion when nothing remains. -/
def VectorIter.next (f : List Nat → Nat → α) (sz : Nat) (it : VectorIter) :
    Option α × VectorIter :=
  if it.remaining = 0 then (none, it)
  else (some (f it.buf it.loc),
        { it with loc := it.loc + sz, remaining := it.remaining - 1 })

/-- `VectorIter::nth` (vector.rs lines 239–251): `remaining` is lowered by
`saturating_sub`, the location by `wrapping_add` (modelled `% USIZE`), then
`next` runs. -/
def VectorIter.nth (f : List Nat → Nat → α) (sz : Nat) (it : VectorIter) (n : Nat) :
    Option α × VectorIter :=
  VectorIter.next f sz
    { it with remaining := it.remaining - n, loc := (it.loc + sz * n) % USIZE }

/-- `VectorIter::size_hint` (vector.rs lines 253–256). -/
def VectorIter.size_hint (it : VectorIter) : Nat × Option Nat :=
  (it.remaining, some it.remaining)

/-- `VectorIter::next_back` (vector.rs lines 260–271): yield the element at
`loc + sz * (remaining - 1)` and lower `remaining`, or report exhaustion. -/
def VectorIter.next_back (f : List Nat → Nat → α) (sz : Nat) (it : VectorIter) :
    Option α × VectorIter :=
  if it.remaining = 0 then (none, it)
  else (some (f it.buf (it.loc + sz * (it.remaining - 1))),
        { it with remaining := it.remaining - 1 })

/-- `VectorIter::nth_back` (vector.rs lines 273–277): `saturating_sub` on
`remaining`, then `next_back`. -/
def VectorIter.nth_back (f : List Nat → Nat → α) (sz : Nat) (it : VectorIter) (n : Nat) :
    Option α × VectorIter :=
  VectorIter.next_back f sz { it with remaining := it.remaining - n }

/-- `ExactSizeIterator::len` for `VectorIter` (vector.rs lines 280–285). -/
def VectorIter.exactLen (it : VectorIter) : Nat := it.remaining

/-! ## Table and field-offset table (table.rs) -/

/-- `VTable<B>` (vtable.rs, declared only): a (storage, location) pair for the
field-offset table. -/
structure VTable where
  buf : List Nat
  loc : Nat
  deriving Repr, DecidableEq

/-- `VTable::num_bytes`. Modelled from the spec: vtable.rs is not under src/;
§6: the field-offset table starts with a 2-byte own-byte-size header. -/
def VTable.num_bytes (vt : VTable) : Nat := readLE vt.buf vt.loc 2

/-- `VTable::get`. Modelled from the spec: vtable.rs is not under src/; §4.4:
look up the raw 2-byte offset for the slot, "0 if the slot exceeds the
table's declared length" — a slot entry needs 2 bytes inside the declared
byte size. -/
def VTable.get (vt : VTable) (slot_byte_loc : Nat) : Nat :=
  if slot_byte_loc + 2 ≤ vt.num_bytes then readLE vt.buf (vt.loc + slot_byte_loc) 2
  else 0

/-- `BackwardsSOffset<T>::follow`. Modelled from the spec: primitives.rs is
not under src/; §4.3: "reads a 4-byte signed-magnitude offset at `location`
and decodes the wrapped type at `location - offset`". The 4 little-endian
bytes are read as a two's-complement 32-bit integer and subtracted in `Int`;
the result is clamped to `Nat` as the new location. -/
def readSOffset (buf : List Nat) (loc : Nat) : Int :=
  let u := readLE buf loc SIZE_UOFFSET
  if u < 2 ^ 31 then (u : Int) else (u : Int) - 2 ^ 32

def backwardsSOffsetFollow (f : List Nat → Nat → α) (buf : List Nat) (loc : Nat) : α :=
  f buf ((loc - readSOffset buf loc) : Int).toNat

/-- `Table<B>` (table.rs lines 22–26). -/
structure Table where
  buf : List Nat
  loc : Nat
  deriving Repr, DecidableEq

/-- `Table::vtable` (table.rs lines 33–36): follow the backward offset stored
at the object's location to its field-offset table. -/
def Table.vtable (t : Table) : VTable :=
  backwardsSOffsetFollow (fun b l => VTable.mk b l) t.buf t.loc

/-- `Table::get` (table.rs lines 37–48): look up the slot's raw offset in the
field-offset table; 0 means absent — return the caller-supplied default;
otherwise decode the field's type at `loc + o`. -/
def Table.get (f : List Nat → Nat → α) (t : Table) (slot_byte_loc : Nat)
    (default : Option α) : Option α :=
  let o := t.vtable.get slot_byte_loc
  if o = 0 then default else some (f t.buf (t.loc + o))

/-! ## Root accessors (get_root.rs) -/

/-- `root_unchecked` (get_root.rs lines 92–98): decode the root through the
forward-offset wrapper at location 0, with no verification. -/
def root_unchecked (f : List Nat → Nat → α) (data : List Nat) : α :=
  forwardsUOffsetFollow f data 0

/-- `root_with_opts` (get_root.rs lines 40–51). Modelled from the spec for the
verifier: the structural verifier is the external collaborator of §6,
consumed as an opaque function from (options, storage, start location) to
success (`none`) or a structural error; the accessor runs it once at
location 0 and, only on success, performs the unchecked root decode. -/
def root_with_opts (run_verifier : Opts → List Nat → Nat → Option Err)
    (f : List Nat → Nat → α) (opts : Opts) (data : List Nat) : Except Err α :=
  match run_verifier opts data 0 with
  | some e => .error e
  | none => .ok (root_unchecked f data)

/-- `root` (get_root.rs lines 26–33): `root_with_opts` at the default
verifier options. -/
def root (run_verifier : Opts → List Nat → Nat → Option Err)
    (f : List Nat → Nat → α) (default_opts : Opts) (data : List Nat) : Except Err α :=
  root_with_opts run_verifier f default_opts data

/-! ## Iteration: drained element lists and operation sequences -/

/-- Forward drain of an iterator: repeatedly call `next`, collecting yielded
elements, for at most `fuel` steps. With `fuel ≥ remaining` this is the full
forward iteration (the iterator reports exhaustion once `remaining` is 0). -/
def drainFwd (f : List Nat → Nat → α) (sz : Nat) : Nat → VectorIter → List α
  | 0, _ => []
  | fuel + 1, it =>
    match VectorIter.next f sz it with
    | (none, _) => []
    | (some a, it') => a :: drainFwd f sz fuel it'

/-- Backward drain of an iterator: repeatedly call `next_back`, collecting
yielded elements, for at most `fuel` steps. -/
def drainBwd (f : List Nat → Nat → α) (sz : Nat) : Nat → VectorIter → List α
  | 0, _ => []
  | fuel + 1, it =>
    match VectorIter.next_back f sz it with
    | (none, _) => []
    | (some a, it') => a :: drainBwd f sz fuel it'

/-- One cursor operation: the four consuming calls of the iterator API. -/
inductive IterOp where
  | next
  | next_back
  | nth (n : Nat)
  | nth_back (n : Nat)
  deriving Repr, DecidableEq

/-- Apply one operation to the cursor state, discarding the yielded value. -/
def applyOp (f : List Nat → Nat → α) (sz : Nat) (it : VectorIter) : IterOp → VectorIter
  | .next => (VectorIter.next f sz it).2
  | .next_back => (VectorIter.next_back f sz it).2
  | .nth n => (VectorIter.nth f sz it n).2
  | .nth_back n => (VectorIter.nth_back f sz it n).2

/-- Apply a sequence of operations, front first. -/
def applyOps (f : List Nat → Nat → α) (sz : Nat) : List IterOp → VectorIter → VectorIter
  | [], it => it
  | op :: ops, it => applyOps f sz ops (applyOp f sz it op)

/-- Specification semantics of one operation on the list of not-yet-produced
elements: `next`/`nth n` consume 1 / `n + 1` elements from the front,
`next_back`/`nth_back n` the same from the back. -/
def specApplyOp (l : List α) : IterOp → List α
  | .next => l.drop 1
  | .next_back => l.dropLast
  | .nth n => l.drop (n + 1)
  | .nth_back n => l.take (l.length - (n + 1))

/-- Specification semantics of a sequence of operations. -/
def specApplyOps : List IterOp → List α → List α
  | [], l => l
  | op :: ops, l => specApplyOps ops (specApplyOp l op)

/-- The number of elements one operation consumes (saturating at the number
available). -/
def opCost : IterOp → Nat
  | .next => 1
  | .next_back => 1
  | .nth n => n + 1
  | .nth_back n => n + 1

/-! ## Helper lemmas -/

theorem drainFwd_eq (f : List Nat → Nat → α) (sz : Nat) :
    ∀ (r : Nat) (buf : List Nat) (loc : Nat),
      drainFwd f sz r ⟨buf, loc, r⟩
        = (List.range r).map (fun i => f buf (loc + sz * i)) := by
  intro r
  induction r with
  | zero => intro buf loc; rfl
  | succ r ih =>
    intro buf loc
    have harith : ∀ i : Nat, loc + sz + sz * i = loc + sz * (i + 1) := by
      intro i; ring
    simp only [drainFwd, VectorIter.next, Nat.succ_ne_zero, if_false, Nat.add_sub_cancel,
      ih buf (loc + sz)]
    rw [List.range_succ_eq_map, List.map_cons, List.map_map]
    simp only [harith, Nat.mul_zero, Nat.add_zero]
    rfl

theorem drainBwd_eq (f : List Nat → Nat → α) (sz : Nat) :
    ∀ (r : Nat) (buf : List Nat) (loc : Nat),
      drainBwd f sz r ⟨buf, loc, r⟩
        = ((List.range r).map (fun i => f buf (loc + sz * i))).reverse := by
  intro r
  induction r with
  | zero => intro buf loc; rfl
  | succ r ih =>
    intro buf loc
    simp only [drainBwd, VectorIter.next_back, Nat.succ_ne_zero, if_false,
      Nat.add_sub_cancel, ih buf loc]
    rw [List.range_succ, List.map_append, List.reverse_append]
    rfl

theorem drainFwd_exhausted (f : List Nat → Nat → α) (sz : Nat) (fuel : Nat)
    (it : VectorIter) (h : it.remaining = 0) : drainFwd f sz fuel it = [] := by
  cases fuel with
  | zero => rfl
  | succ fuel => simp [drainFwd, VectorIter.next, h]

theorem drainBwd_exhausted (f : List Nat → Nat → α) (sz : Nat) (fuel : Nat)
    (it : VectorIter) (h : it.remaining = 0) : drainBwd f sz fuel it = [] := by
  cases fuel with
  | zero => rfl
  | succ fuel => simp [drainBwd, VectorIter.next_back, h]

theorem applyOp_remaining (f : List Nat → Nat → α) (sz : Nat) (it : VectorIter)
    (op : IterOp) : (applyOp f sz it op).remaining = it.remaining - opCost op := by
  cases op with
  | next =>
    by_cases h : it.remaining = 0 <;>
      simp [applyOp, VectorIter.next, h, opCost] <;> omega
  | next_back =>
    by_cases h : it.remaining = 0 <;>
      simp [applyOp, VectorIter.next_back, h, opCost] <;> omega
  | nth n =>
    by_cases h : it.remaining - n = 0 <;>
      simp [applyOp, VectorIter.nth, VectorIter.next, h, opCost] <;> omega
  | nth_back n =>
    by_cases h : it.remaining - n = 0 <;>
      simp [applyOp, VectorIter.nth_back, VectorIter.next_back, h, opCost] <;> omega

theorem specApplyOp_length (l : List α) (op : IterOp) :
    (specApplyOp l op).length = l.length - opCost op := by
  cases op <;> simp [specApplyOp, opCost] <;> omega

theorem applyOps_remaining (f : List Nat → Nat → α) (sz : Nat) :
    ∀ (ops : List IterOp) (it : VectorIter) (l : List α),
      it.remaining = l.length →
      (applyOps f sz ops it).remaining = (specApplyOps ops l).length := by
  intro ops
  induction ops with
  | nil => intro it l h; exact h
  | cons op ops ih =>
    intro it l h
    simp only [applyOps, specApplyOps]
    exact ih _ _ (by rw [applyOp_remaining, specApplyOp_length, h])

theorem drainFwd_fuel (f : List Nat → Nat → α) (sz : Nat) :
    ∀ (r extra : Nat) (buf : List Nat) (loc : Nat),
      drainFwd f sz (r + extra) ⟨buf, loc, r⟩ = drainFwd f sz r ⟨buf, loc, r⟩ := by
  intro r
  induction r with
  | zero =>
    intro extra buf loc
    rw [drainFwd_exhausted f sz _ _ rfl, drainFwd_exhausted f sz _ _ rfl]
  | succ r ih =>
    intro extra buf loc
    have hfuel : r + 1 + extra = (r + extra) + 1 := by omega
    rw [hfuel]
    simp only [drainFwd, VectorIter.next, Nat.succ_ne_zero, if_false, Nat.add_sub_cancel]
    rw [ih extra buf (loc + sz)]

theorem drainBwd_fuel (f : List Nat → Nat → α) (sz : Nat) :
    ∀ (r extra : Nat) (buf : List Nat) (loc : Nat),
      drainBwd f sz (r + extra) ⟨buf, loc, r⟩ = drainBwd f sz r ⟨buf, loc, r⟩ := by
  intro r
  induction r with
  | zero =>
    intro extra buf loc
    rw [drainBwd_exhausted f sz _ _ rfl, drainBwd_exhausted f sz _ _ rfl]
  | succ r ih =>
    intro extra buf loc
    have hfuel : r + 1 + extra = (r + extra) + 1 := by omega
    rw [hfuel]
    simp only [drainBwd, VectorIter.next_back, Nat.succ_ne_zero, if_false,
      Nat.add_sub_cancel]
    rw [ih extra buf loc]

theorem applyOps_remaining_le (f : List Nat → Nat → α) (sz : Nat) :
    ∀ (ops : List IterOp) (it : VectorIter),
      (applyOps f sz ops it).remaining ≤ it.remaining := by
  intro ops
  induction ops with
  | nil => intro it; exact Nat.le_refl _
  | cons op ops ih =>
    intro it
    calc (applyOps f sz ops (applyOp f sz it op)).remaining
        ≤ (applyOp f sz it op).remaining := ih _
      _ ≤ it.remaining := by rw [applyOp_remaining]; omega

/-! ## Claim theorems -/

/-- C6: for a vector whose 4-byte count field encodes `L = len`, forward
iteration yields exactly `L` elements, the `i`-th being the element decoded at
data start (`loc + SIZE_UOFFSET`) plus `i * stride`; backward iteration yields
exactly the same elements in reverse; `len` is the little-endian 4-byte count;
extra iteration fuel yields nothing further; and for `L = 0` both directions
terminate immediately with no element produced. -/
theorem vector_iteration_order (v : Vector) (f : List Nat → Nat → α) (sz : Nat) :
    drainFwd f sz v.len v.iter
        = (List.range v.len).map (fun i => f v.buf (v.loc + SIZE_UOFFSET + sz * i)) ∧
    (drainFwd f sz v.len v.iter).length = v.len ∧
    drainBwd f sz v.len v.iter = (drainFwd f sz v.len v.iter).reverse ∧
    (∀ extra, drainFwd f sz (v.len + extra) v.iter = drainFwd f sz v.len v.iter ∧
              drainBwd f sz (v.len + extra) v.iter = drainBwd f sz v.len v.iter) ∧
    v.len = readLE v.buf v.loc SIZE_UOFFSET ∧
    (v.len = 0 → ∀ fuel, drainFwd f sz fuel v.iter = [] ∧ drainBwd f sz fuel v.iter = []) := by
  have hf := drainFwd_eq f sz v.len v.buf (v.loc + SIZE_UOFFSET)
  have hb := drainBwd_eq f sz v.len v.buf (v.loc + SIZE_UOFFSET)
  have hiter : v.iter = ⟨v.buf, v.loc + SIZE_UOFFSET, v.len⟩ := rfl
  rw [hiter]
  refine ⟨hf, ?_, ?_, ?_, rfl, ?_⟩
  · rw [hf]; simp
  · rw [hf, hb]
  · intro extra
    exact ⟨drainFwd_fuel f sz v.len extra v.buf _, drainBwd_fuel f sz v.len extra v.buf _⟩
  · intro h0 fuel
    exact ⟨drainFwd_exhausted f sz fuel _ h0, drainBwd_exhausted f sz fuel _ h0⟩

/-- C6 witness: the concrete 2-element byte vector `[7, 9]` iterates forward
to the decoded element list, and the length-0 vector yields nothing in either
direction for any fuel. -/
theorem vector_iteration_order_witness :
    drainFwd (fun b l => b.getD l 0) 1 (Vector.len ⟨[2, 0, 0, 0, 7, 9], 0⟩)
        (Vector.iter ⟨[2, 0, 0, 0, 7, 9], 0⟩)
      = (List.range (Vector.len ⟨[2, 0, 0, 0, 7, 9], 0⟩)).map
          (fun i => ([2, 0, 0, 0, 7, 9] : List Nat).getD (0 + SIZE_UOFFSET + 1 * i) 0) ∧
    (∀ fuel, drainFwd (fun b l => b.getD l 0) 1 fuel (Vector.iter ⟨[0, 0, 0, 0], 0⟩) = [] ∧
        drainBwd (fun b l => b.getD l 0) 1 fuel (Vector.iter ⟨[0, 0, 0, 0], 0⟩) = []) :=
  ⟨(vector_iteration_order ⟨[2, 0, 0, 0, 7, 9], 0⟩ (fun b l => b.getD l 0) 1).1,
   (vector_iteration_order ⟨[0, 0, 0, 0], 0⟩ (fun b l => b.getD l 0) 1).2.2.2.2.2
     (by decide)⟩

/-- C7: after any interleaving of `next`, `next_back`, `nth`, `nth_back`, the
cursor's `size_hint` and `ExactSizeIterator::len` both report exactly the
length of the list of not-yet-produced elements (the decoded element list of
the vector with the consumed front/back parts removed). -/
theorem iterator_remaining_exact (v : Vector) (f : List Nat → Nat → α) (sz : Nat)
    (ops : List IterOp) :
    (applyOps f sz ops v.iter).size_hint
        = ((specApplyOps ops ((List.range v.len).map
              (fun i => f v.buf (v.loc + SIZE_UOFFSET + sz * i)))).length,
           some ((specApplyOps ops ((List.range v.len).map
              (fun i => f v.buf (v.loc + SIZE_UOFFSET + sz * i)))).length)) ∧
    (applyOps f sz ops v.iter).exactLen
        = (specApplyOps ops ((List.range v.len).map
              (fun i => f v.buf (v.loc + SIZE_UOFFSET + sz * i)))).length := by
  have h := applyOps_remaining f sz ops v.iter
      ((List.range v.len).map (fun i => f v.buf (v.loc + SIZE_UOFFSET + sz * i)))
      (by simp [Vector.iter, VectorIter.new])
  exact ⟨by simp [VectorIter.size_hint, h], h⟩

/-- C5: skipping `n ≥ remaining` elements via `nth` or `nth_back` yields
end-of-sequence and leaves `remaining = 0` (the subtraction saturates, no
wraparound), with no element decoded — the `none` result holds for every
decode function `f`; and exhaustion is permanent: with `remaining = 0`,
`next` and `next_back` return end-of-sequence leaving the state unchanged, and
every further operation sequence keeps `remaining = 0`. -/
theorem iterator_skip_saturates (it : VectorIter) (f : List Nat → Nat → α)
    (sz n : Nat) (h : it.remaining ≤ n) :
    (VectorIter.nth f sz it n).1 = none ∧
    (VectorIter.nth f sz it n).2.remaining = 0 ∧
    (VectorIter.nth_back f sz it n).1 = none ∧
    (VectorIter.nth_back f sz it n).2.remaining = 0 ∧
    (∀ it' : VectorIter, it'.remaining = 0 →
      VectorIter.next f sz it' = (none, it') ∧
      VectorIter.next_back f sz it' = (none, it') ∧
      ∀ ops : List IterOp, (applyOps f sz ops it').remaining = 0) := by
  have hz : it.remaining - n = 0 := by omega
  refine ⟨?_, ?_, ?_, ?_, ?_⟩
  · simp [VectorIter.nth, VectorIter.next, hz]
  · simp [VectorIter.nth, VectorIter.next, hz]
  · simp [VectorIter.nth_back, VectorIter.next_back, hz]
  · simp [VectorIter.nth_back, VectorIter.next_back, hz]
  · intro it' h0
    refine ⟨by simp [VectorIter.next, h0], by simp [VectorIter.next_back, h0], ?_⟩
    intro ops
    have hle := applyOps_remaining_le f sz ops it'
    omega

/-- C5 witness: a concrete cursor with 3 remaining, skipped by 3 from the
front, is exhausted and stays exhausted. -/
theorem iterator_skip_saturates_witness :
    (VectorIter.nth (fun _ l => l) 1 ⟨[], 0, 3⟩ 3).1 = none ∧
    (VectorIter.nth (fun _ l => l) 1 ⟨[], 0, 3⟩ 3).2.remaining = 0 ∧
    (VectorIter.nth_back (fun _ l => l) 1 ⟨[], 0, 3⟩ 3).1 = none ∧
    (VectorIter.nth_back (fun _ l => l) 1 ⟨[], 0, 3⟩ 3).2.remaining = 0 ∧
    (∀ it' : VectorIter, it'.remaining = 0 →
      VectorIter.next (fun _ l => l) 1 it' = (none, it') ∧
      VectorIter.next_back (fun _ l => l) 1 it' = (none, it') ∧
      ∀ ops : List IterOp, (applyOps (fun _ l => l) 1 ops it').remaining = 0) :=
  iterator_skip_saturates ⟨[], 0, 3⟩ (fun _ l => l) 1 3 (by decide)

/-- C10: the default-constructed vector is a well-formed empty vector: its
length is 0, it is empty, its iterator reports end-of-sequence on the first
call in either direction for every decode function, and the 4-byte length
read lies entirely inside its 4-byte backing buffer. -/
theorem default_vector_well_formed (f : List Nat → Nat → α) (sz : Nat) :
    Vector.default.len = 0 ∧
    Vector.default.is_empty = true ∧
    (VectorIter.next f sz Vector.default.iter).1 = none ∧
    (VectorIter.next_back f sz Vector.default.iter).1 = none ∧
    Vector.default.loc + SIZE_UOFFSET ≤ Vector.default.buf.length := by
  have hlen : Vector.default.len = 0 := by decide
  refine ⟨hlen, by decide, ?_, ?_, by decide⟩
  · simp [VectorIter.next, Vector.iter, VectorIter.new, hlen]
  · simp [VectorIter.next_back, Vector.iter, VectorIter.new, hlen]

/-- C8: `Buffer::slice` on the byte-slice storage is absent exactly when
`start > end` or `end` exceeds the storage length; otherwise it is a window of
exactly the bytes from `start` (inclusive) to `end` (exclusive). -/
theorem buffer_slice_spec (buf : List Nat) (s e : Nat) :
    (sliceBuf buf s e = none ↔ s > e ∨ e > buf.length) ∧
    (∀ l, sliceBuf buf s e = some l →
      l.length = e - s ∧ ∀ i, i < e - s → l[i]? = buf[s + i]?) := by
  by_cases hc : s > e ∨ e > buf.length
  · refine ⟨by simp [sliceBuf, hc], ?_⟩
    intro l hl
    simp [sliceBuf, hc] at hl
  · push_neg at hc
    obtain ⟨hse, hel⟩ := hc
    refine ⟨by simp [sliceBuf]; omega, ?_⟩
    intro l hl
    rw [sliceBuf, if_neg (by omega)] at hl
    injection hl with hl
    subst hl
    constructor
    · rw [List.length_take, List.length_drop, min_eq_left (by omega)]
    · intro i hi
      rw [List.getElem?_take, if_pos hi, List.getElem?_drop]

/-- C8 witness: a concrete in-range slice and the bytes it exposes. -/
theorem buffer_slice_spec_witness :
    (sliceBuf [1, 2, 3] 1 3 = none ↔ 1 > 3 ∨ 3 > ([1, 2, 3] : List Nat).length) ∧
    (([2, 3] : List Nat).length = 3 - 1 ∧
      ∀ i, i < 3 - 1 → ([2, 3] : List Nat)[i]? = [1, 2, 3][1 + i]?) :=
  ⟨(buffer_slice_spec [1, 2, 3] 1 3).1,
   (buffer_slice_spec [1, 2, 3] 1 3).2 [2, 3] (by decide)⟩

/-- C9: for a fixed-stride element type and `idx < len`, `Vector::get`
decodes the element type at `loc + SIZE_UOFFSET + sz * idx` over the same
storage, and that value is exactly the `idx`-th element forward iteration
yields. -/
theorem vector_get_spec (v : Vector) (f : List Nat → Nat → α) (sz idx : Nat)
    (h : idx < v.len) :
    Vector.get f sz v idx = f v.buf (v.loc + SIZE_UOFFSET + sz * idx) ∧
    (drainFwd f sz v.len v.iter)[idx]? = some (Vector.get f sz v idx) := by
  refine ⟨rfl, ?_⟩
  have hiter : v.iter = ⟨v.buf, v.loc + SIZE_UOFFSET, v.len⟩ := rfl
  rw [hiter, drainFwd_eq f sz v.len v.buf (v.loc + SIZE_UOFFSET)]
  simp [List.getElem?_map, List.getElem?_range h, Vector.get]

/-- C9 witness: a 2-element byte vector, whose element 1 is read at
`loc + 4 + 1`. -/
theorem vector_get_spec_witness :
    Vector.get (fun b l => b.getD l 0) 1 ⟨[2, 0, 0, 0, 7, 9], 0⟩ 1
        = (fun b l => b.getD l 0) [2, 0, 0, 0, 7, 9] (0 + SIZE_UOFFSET + 1 * 1) ∧
    (drainFwd (fun b l => b.getD l 0) 1 (Vector.len ⟨[2, 0, 0, 0, 7, 9], 0⟩)
        (Vector.iter ⟨[2, 0, 0, 0, 7, 9], 0⟩))[1]?
      = some (Vector.get (fun b l => b.getD l 0) 1 ⟨[2, 0, 0, 0, 7, 9], 0⟩ 1) :=
  vector_get_spec ⟨[2, 0, 0, 0, 7, 9], 0⟩ (fun b l => b.getD l 0) 1 1 (by decide)

/-- C4: `Table::get` returns exactly the caller-supplied default when the
field-offset table entry for the slot is 0 or the slot lies beyond the
table's declared byte size, and never a value decoded at the object's
offset 0; when the entry is a nonzero `o`, it decodes the field's type at
`loc + o`. -/
theorem table_get_default (t : Table) (f : List Nat → Nat → α) (slot : Nat)
    (dflt : Option α) :
    (t.vtable.get slot = 0 → Table.get f t slot dflt = dflt) ∧
    (t.vtable.num_bytes < slot + 2 → Table.get f t slot dflt = dflt) ∧
    (∀ o, t.vtable.get slot = o → o ≠ 0 →
      Table.get f t slot dflt = some (f t.buf (t.loc + o))) := by
  refine ⟨?_, ?_, ?_⟩
  · intro h0
    simp [Table.get, h0]
  · intro hbeyond
    have h0 : t.vtable.get slot = 0 := by
      rw [VTable.get, if_neg (by omega)]
    simp [Table.get, h0]
  · intro o ho hno
    simp [Table.get, ho, hno]

/-- C4 witness: a concrete object whose field-offset table marks slot 4
absent (entry 0) and declares 6 bytes, so slot 6 is beyond the declared
size; both lookups return the supplied default. -/
theorem table_get_default_witness :
    Table.get (fun b l => b.getD l 0) ⟨[6, 0, 8, 0, 0, 0, 6, 0, 0, 0], 6⟩ 4 (some 42)
        = some 42 ∧
    Table.get (fun b l => b.getD l 0) ⟨[6, 0, 8, 0, 0, 0, 6, 0, 0, 0], 6⟩ 6 (some 42)
        = some 42 :=
  ⟨(table_get_default ⟨[6, 0, 8, 0, 0, 0, 6, 0, 0, 0], 6⟩ (fun b l => b.getD l 0) 4
      (some 42)).1 (by decide),
   (table_get_default ⟨[6, 0, 8, 0, 0, 0, 6, 0, 0, 0], 6⟩ (fun b l => b.getD l 0) 6
      (some 42)).2.1 (by decide)⟩

/-- C3: for a 4-byte identifier, `buffer_has_identifier` is true exactly when
the 4 bytes of the identifier region (at root-offset + size-field skip when
requested) equal the supplied identifier bytes, and is false — without any
out-of-window access, the region being truncated at the buffer end — whenever
the buffer is shorter than the identifier region. -/
theorem buffer_has_identifier_spec (data ident : List Nat) (sp : Bool)
    (hid : ident.length = FILE_IDENTIFIER_LENGTH) :
    ((if sp then SIZE_SIZE_FIELD else 0) + SIZE_UOFFSET + FILE_IDENTIFIER_LENGTH
        ≤ data.length →
      (buffer_has_identifier data ident sp = true ↔
        (data.drop ((if sp then SIZE_SIZE_FIELD else 0) + SIZE_UOFFSET)).take
            FILE_IDENTIFIER_LENGTH = ident)) ∧
    (data.length
        < (if sp then SIZE_SIZE_FIELD else 0) + SIZE_UOFFSET + FILE_IDENTIFIER_LENGTH →
      buffer_has_identifier data ident sp = false) := by
  have hgot : buffer_has_identifier data ident sp
      = (ident == (data.drop ((if sp then SIZE_SIZE_FIELD else 0) + SIZE_UOFFSET)).take
          FILE_IDENTIFIER_LENGTH) := by
    cases sp <;> rfl
  constructor
  · intro hlen
    rw [hgot]
    constructor
    · intro h; exact (beq_iff_eq.mp h).symm
    · intro h; exact beq_iff_eq.mpr h.symm
  · intro hshort
    rw [hgot]
    refine beq_eq_false_iff_ne.mpr ?_
    intro heq
    have h1 : ident.length
        = ((data.drop ((if sp then SIZE_SIZE_FIELD else 0) + SIZE_UOFFSET)).take
            FILE_IDENTIFIER_LENGTH).length := by rw [heq]
    rw [List.length_take, List.length_drop, hid] at h1
    simp only [FILE_IDENTIFIER_LENGTH, SIZE_UOFFSET, SIZE_SIZE_FIELD] at h1 hshort
    cases sp <;> simp at h1 hshort <;> omega

/-- C3 witness: an 8-byte unprefixed buffer whose identifier region matches,
and a 7-byte buffer shorter than the region, which compares false. -/
theorem buffer_has_identifier_spec_witness :
    (buffer_has_identifier [9, 9, 9, 9, 65, 66, 67, 68] [65, 66, 67, 68] false = true ↔
      (([9, 9, 9, 9, 65, 66, 67, 68] : List Nat).drop
          ((if false then SIZE_SIZE_FIELD else 0) + SIZE_UOFFSET)).take
          FILE_IDENTIFIER_LENGTH = [65, 66, 67, 68]) ∧
    buffer_has_identifier [9, 9, 9, 9, 65, 66, 67] [65, 66, 67, 68] false = false :=
  ⟨(buffer_has_identifier_spec [9, 9, 9, 9, 65, 66, 67, 68] [65, 66, 67, 68] false
      (by decide)).1 (by decide),
   (buffer_has_identifier_spec [9, 9, 9, 9, 65, 66, 67] [65, 66, 67, 68] false
      (by decide)).2 (by decide)⟩

/-- C1: the checked root accessors return a structural error exactly when the
external verifier reports one; on verifier success the returned view is
exactly the unchecked root decode of the same buffer; on verifier failure the
error is returned with no typed decode performed (the result is the same for
every decode function); and `root` is `root_with_opts` at the default
options. -/
theorem root_checked_iff_verifier {Opts Err : Type} {α : Type}
    (run_verifier : Opts → List Nat → Nat → Option Err)
    (f : List Nat → Nat → α) (opts : Opts) (data : List Nat) :
    (∀ e, run_verifier opts data 0 = some e →
      root_with_opts run_verifier f opts data = Except.error e ∧
      ∀ g : List Nat → Nat → α,
        root_with_opts run_verifier g opts data = Except.error e) ∧
    (run_verifier opts data 0 = none →
      root_with_opts run_verifier f opts data
        = Except.ok (root_unchecked f data)) ∧
    ((∃ e, root_with_opts run_verifier f opts data = Except.error e) ↔
      (∃ e, run_verifier opts data 0 = some e)) ∧
    root run_verifier f opts data = root_with_opts run_verifier f opts data := by
  refine ⟨?_, ?_, ?_, rfl⟩
  · intro e he
    exact ⟨by simp [root_with_opts, he], fun g => by simp [root_with_opts, he]⟩
  · intro hn
    simp [root_with_opts, hn]
  · cases hv : run_verifier opts data 0 <;> simp [root_with_opts, hv]

/-- C1 witness: a rejecting verifier yields the structural error for any
decode function; an accepting verifier yields exactly the unchecked root
decode. -/
theorem root_checked_iff_verifier_witness :
    (root_with_opts (fun (_ : Unit) _ _ => some 7) (fun _ l => l) () [] =
        Except.error 7 ∧
      ∀ g : List Nat → Nat → Nat,
        root_with_opts (fun (_ : Unit) _ _ => some 7) g () [] = Except.error 7) ∧
    root_with_opts (fun (_ : Unit) _ _ => (none : Option Nat)) (fun _ l => l) () []
      = Except.ok (root_unchecked (fun _ l => l) []) :=
  ⟨(root_checked_iff_verifier (fun _ _ _ => some 7) (fun _ l => l) () []).1 7 rfl,
   (root_checked_iff_verifier (fun _ _ _ => none) (fun _ l => l) () []).2.1 rfl⟩

/-- C2 counterexample: the byte `0xFF` alone is not valid UTF-8 and
`buffer_str` on it fails, yet the string decode of the 5-byte buffer
`[1, 0, 0, 0, 0xFF]` at location 0 — whose payload is exactly that invalid
byte — does not fail: it silently yields the canonical empty string. -/
theorem string_follow_swallows_utf8_error :
    isValidUtf8 [0xFF] = false ∧
    buffer_str [0xFF] = none ∧
    followStr [1, 0, 0, 0, 0xFF] 0 = empty_str := by
  refine ⟨by decide, by decide, by decide⟩

/-- C2 amended: `buffer_str` fails with the conversion error exactly on
invalid UTF-8 and otherwise returns exactly its input bytes (never repaired,
truncated, or replaced); the empty storage instance materializes to the
canonical empty string; and the string decode (`Follow` for `&str`) maps a
UTF-8 failure of its payload to the canonical empty string instead of
propagating the error. -/
theorem string_materialization_amended (bs buf : List Nat) (loc : Nat) :
    (isValidUtf8 bs = false → buffer_str bs = none) ∧
    (isValidUtf8 bs = true → buffer_str bs = some bs) ∧
    buffer_str emptyBuf = some empty_str ∧
    (isValidUtf8 ((sliceBuf buf (loc + SIZE_UOFFSET)
        (loc + SIZE_UOFFSET + readLE buf loc SIZE_UOFFSET)).getD emptyBuf) = false →
      followStr buf loc = empty_str) := by
  refine ⟨?_, ?_, by decide, ?_⟩
  · intro h; simp [buffer_str, h]
  · intro h; simp [buffer_str, h]
  · intro h
    rw [followStr]
    simp [buffer_str, h, empty_str]

/-- C2 amended witness: at the invalid byte run `[0xFF]` the conversion
fails, and the string decode of `[1, 0, 0, 0, 0xFF]` at location 0 falls back
to the canonical empty string. -/
theorem string_materialization_amended_witness :
    buffer_str [0xFF] = none ∧ followStr [1, 0, 0, 0, 0xFF] 0 = empty_str :=
  ⟨(string_materialization_amended [0xFF] [] 0).1 (by decide),
   (string_materialization_amended [] [1, 0, 0, 0, 0xFF] 0).2.2.2 (by decide)⟩

end Flatbuffers
